import Mathlib

/-!
Verification of the proteus protobuf transformer (package protobuf of the
Serabe/proteus repository) against its natural-language specification.

The Go sources embedded here are src/protobuf/transform.go and
src/protobuf/mapping.go.  The scanner-side type model (package scanner) and
the protobuf-side output model (the types file defining Package, Message,
Field, Enum and their helper methods) are not part of the provided sources;
where one of their operations is needed it is modelled from the
specification and marked as such in its doc comment.  Machine integers of
the Go code (int positions, uint ordinals) are modelled as Nat: all values
involved are small and non-negative, no overflow can occur.
-/

namespace Proteus

/-- Scanner-side (input) types, mirroring scanner.Type with its three
implementations Basic, Named and Map.  Each Go scanner type embeds a
BaseType carrying the Repeated flag, modelled here as the first argument of
every constructor. -/
inductive SType : Type
| basic (repeated : Bool) (name : String)
| named (repeated : Bool) (path name : String)
| smap (repeated : Bool) (key value : SType)
deriving Repr, DecidableEq

/-- scanner.Type.IsRepeated: returns the Repeated flag of the base type. -/
def SType.isRepeated : SType → Bool
| SType.basic r _ => r
| SType.named r _ _ => r
| SType.smap r _ _ => r

/-- scanner.Field: a struct field with a name and a declared type. -/
structure SField : Type where
  name : String
  type : SType
deriving Repr, DecidableEq

/-- scanner.Struct: a named record with an ordered field list. -/
structure SStruct : Type where
  name : String
  fields : List SField
deriving Repr, DecidableEq

/-- scanner.Enum: a named enumeration with its ordered value names. -/
structure SEnum : Type where
  name : String
  values : List String
deriving Repr, DecidableEq

/-- Modelled from the spec: the scanner prints a named type as its
fully-qualified name, the package path and the type name joined by a dot
(the mapping table documentation gives time.Time and foo.bar/baz.Qux as
examples); a named type with an empty path prints as the bare name.  The
Go method scanner.Named.String is in the missing scanner types file. -/
def namedString (path name : String) : String :=
  if path = "" then name else path ++ "." ++ name

/-- Protobuf-side (output) types, mirroring the Type values built by
NewBasic, NewNamed, NewGeneratedNamed and NewMap.  The Go function NewMap receives the
two component types as possibly-nil interface values, hence the Option
components of the pmap constructor. -/
inductive PType : Type
| basic (name : String)
| named (pkg name : String)
| generated (pkg name : String)
| pmap (key value : Option PType)
deriving Repr

/-- Output field: name, 1-based position, type and repeated flag. -/
structure Field : Type where
  name : String
  pos : Nat
  type : PType
  repeated : Bool
deriving Repr

/-- Output message: name, ordered field list and reserved positions. -/
structure Message : Type where
  name : String
  fields : List Field := []
  reserved : List Nat := []
deriving Repr

/-- Output enum value: a name with its unsigned ordinal. -/
structure EnumValue : Type where
  name : String
  value : Nat
deriving Repr, DecidableEq

/-- Output enum: a name with its ordered value list. -/
structure PEnum : Type where
  name : String
  values : List EnumValue := []
deriving Repr, DecidableEq

/-- Output RPC entry: a name with its input and output type references. -/
structure RPC : Type where
  name : String
  inputType : PType
  outputType : PType
deriving Repr

/-- Output package: name, path, messages, enums, RPC entries and the
insertion-ordered duplicate-free list of imported proto files. -/
structure Package : Type where
  name : String := ""
  path : String := ""
  messages : List Message := []
  enums : List PEnum := []
  rpcs : List RPC := []
  imports : List String := []
deriving Repr

/-- Warnings sent to the report sink by the transformer.  The Go code
formats them with report.Warn; here each call site becomes one structured
constructor carrying the formatted-in arguments. -/
inductive Warning : Type
| invalidField (fieldName structName : String)
| unmappedBasic (typeName : String)
deriving Repr, DecidableEq

/-- Modelled from the spec: Message.Reserve (in the missing protobuf types
file) adds a position to the set of reserved field positions; reserved
positions form a set, so a position already present is not added twice. -/
def Message.reserve (m : Message) (pos : Nat) : Message :=
  if pos ∈ m.reserved then m else { m with reserved := m.reserved ++ [pos] }

/-- Modelled from the spec: registering an imported proto file in a
package; imports are registered at most once, in first-use order. -/
def Package.addImport (p : Package) (file : String) : Package :=
  if file ∈ p.imports then p else { p with imports := p.imports ++ [file] }

/-- ProtoType of mapping.go: a protobuf type descriptor in the mapping
table.  The field imp models the Go field named Import (the proto file
required by the type); warn models Warn, the upgrade-warning format string.
The Decorators field (a list of function values that transform.go as given
never invokes) is not modelled. -/
structure ProtoType : Type where
  package : String := ""
  basic : Bool := false
  name : String := ""
  imp : String := ""
  goImport : String := ""
  warn : String := ""
deriving Repr, DecidableEq

/-- ProtoType.Type of mapping.go: the protobuf type representation of a
mapping-table descriptor. -/
def ProtoType.type (t : ProtoType) : PType :=
  if t.basic then PType.basic t.name else PType.named t.package t.name

/-- Modelled from the spec: Package.Import (in the missing protobuf types
file) registers the proto file required by a mapped type, when it has one,
at most once per package. -/
def Package.importProto (p : Package) (pt : ProtoType) : Package :=
  if pt.imp = "" then p else p.addImport pt.imp

/-- Modelled from the spec: Package.ImportFromPath (in the missing
protobuf types file) registers the generated proto file of another scanned
Go package; the transformer test expects the path foo to register
foo/generated.proto. -/
def Package.importFromPath (p : Package) (path : String) : Package :=
  p.addImport (path ++ "/generated.proto")

/-- TypeMappings of mapping.go: a mapping between Go type names and
protobuf types.  The Go map with its unique keys is modelled as an
association list looked up by first match. -/
def TypeMappings : Type := List (String × ProtoType)

/-- Lookup in a mapping table, Go map indexing with nil for a missing
key. -/
def lookupMapping (m : TypeMappings) (name : String) : Option ProtoType :=
  (List.find? (fun p => p.1 == name) m).map Prod.snd

/-- DefaultMappings of mapping.go, entry for entry in source order.  This
is the table variant carrying Warn strings; transform.go refers to it in
lower case. -/
def DefaultMappings : TypeMappings :=
  [ ("float64", { name := "double", basic := true }),
    ("float32", { name := "float", basic := true }),
    ("int32", { name := "int32", basic := true }),
    ("int64", { name := "int64", basic := true }),
    ("uint32", { name := "uint32", basic := true }),
    ("uint64", { name := "uint64", basic := true }),
    ("bool", { name := "bool", basic := true }),
    ("string", { name := "string", basic := true }),
    ("uint8", { name := "uint32", basic := true, warn := "type %s was upgraded to uint32" }),
    ("int8", { name := "int32", basic := true, warn := "type %s was upgraded to int32" }),
    ("byte", { name := "uint32", basic := true, warn := "type %s was upgraded to uint32" }),
    ("uint16", { name := "uint32", basic := true, warn := "type %s was upgraded to uint32" }),
    ("int16", { name := "int32", basic := true, warn := "type %s was upgraded to int32" }),
    ("int", { name := "int64", basic := true, warn := "type %s was upgraded to int64" }),
    ("uint", { name := "uint64", basic := true, warn := "type %s was upgraded to uint64" }),
    ("uintptr", { name := "uint64", basic := true }),
    ("rune", { name := "int32", basic := true }),
    ("time.Time",
      { name := "Timestamp", package := "google.protobuf",
        imp := "google/protobuf/timestamp.proto",
        goImport := "github.com/gogo/protobuf/types" }),
    ("time.Duration",
      { name := "int64", basic := true, package := "google.protobuf",
        imp := "google/protobuf/duration.proto",
        goImport := "github.com/gogo/protobuf/types" }) ]

/-- Transformer of transform.go: holds the caller-supplied custom
mappings, consulted before the default table. -/
structure Transformer : Type where
  mappings : TypeMappings

/-- findMapping of transform.go: custom mappings first, default mappings
second. -/
def Transformer.findMapping (t : Transformer) (name : String) : Option ProtoType :=
  match lookupMapping t.mappings name with
  | some typ => some typ
  | none => lookupMapping DefaultMappings name

/-- isByteSlice of transform.go: a repeated basic type named byte. -/
def isByteSlice : SType → Bool
| SType.basic r name => r && name == "byte"
| _ => false

/-- The rune-level recursion behind toLowerSnakeCase of transform.go: the
flags are isFirst (true exactly at the first rune, where the Go byte index
i is 0) and lastWasUpper.  Upper- and lower-case tests model the Go functions
unicode.IsUpper and unicode.ToLower, restricted to the ASCII range used by
Go identifiers. -/
def lowerSnakeChars : Bool → Bool → List Char → List Char
| _, _, [] => []
| isFirst, lastWasUpper, r :: rest =>
    (if r.isUpper && !isFirst && !lastWasUpper then ['_'] else [])
      ++ r.toLower :: lowerSnakeChars false r.isUpper rest

/-- toLowerSnakeCase of transform.go. -/
def toLowerSnakeCase (s : String) : String :=
  String.mk (lowerSnakeChars true false s.data)

/-- toUpperSnakeCase of transform.go: lower snake case, then upper-cased
rune by rune (Go strings.ToUpper, modelled on the ASCII range). -/
def toUpperSnakeCase (s : String) : String :=
  String.mk ((toLowerSnakeCase s).data.map Char.toUpper)

/-- The table behind the Unicode normalization chain of toProtobufPkg
(decompose, strip combining marks, recompose), which this embedding models
on the precomposed Latin letters whose decomposition is a base letter plus
one combining mark; every other character is left unchanged.  This models
the external golang.org/x/text transform chain, not repository code. -/
def accentFold : List (Char × Char) :=
  [ ('á', 'a'), ('à', 'a'), ('â', 'a'), ('ä', 'a'), ('ã', 'a'), ('å', 'a'),
    ('é', 'e'), ('è', 'e'), ('ê', 'e'), ('ë', 'e'),
    ('í', 'i'), ('ì', 'i'), ('î', 'i'), ('ï', 'i'),
    ('ó', 'o'), ('ò', 'o'), ('ô', 'o'), ('ö', 'o'), ('õ', 'o'),
    ('ú', 'u'), ('ù', 'u'), ('û', 'u'), ('ü', 'u'),
    ('ç', 'c'), ('ñ', 'n'), ('ý', 'y'),
    ('Á', 'A'), ('À', 'A'), ('Â', 'A'), ('Ä', 'A'), ('Ã', 'A'), ('Å', 'A'),
    ('É', 'E'), ('È', 'E'), ('Ê', 'E'), ('Ë', 'E'),
    ('Í', 'I'), ('Ì', 'I'), ('Î', 'I'), ('Ï', 'I'),
    ('Ó', 'O'), ('Ò', 'O'), ('Ô', 'O'), ('Ö', 'O'), ('Õ', 'O'),
    ('Ú', 'U'), ('Ù', 'U'), ('Û', 'U'), ('Ü', 'U'),
    ('Ç', 'C'), ('Ñ', 'N'), ('Ý', 'Y') ]

/-- Strip the combining marks of one character: the modelled normalization
chain of toProtobufPkg. -/
def removeDiacritics (c : Char) : Char :=
  match List.find? (fun p => p.1 == c) accentFold with
  | some p => p.2
  | none => c

/-- The Go function unicode.IsLetter as used on package paths, modelled on ASCII
letters together with the precomposed accent-folding table letters. -/
def goIsLetter (c : Char) : Bool :=
  c.isAlpha || List.any accentFold (fun p => p.1 == c)

/-- The Go function unicode.IsNumber as used on package paths, modelled on ASCII
digits. -/
def goIsNumber (c : Char) : Bool :=
  c.isDigit

/-- The rune mapping passed to strings.Map inside toProtobufPkg: path
separators and dots become dots, letters and numbers stay, everything else
becomes a space. -/
def pkgMapRune (r : Char) : Char :=
  if r == '/' || r == '.' then '.'
  else if goIsLetter r || goIsNumber r then r
  else ' '

/-- toProtobufPkg of transform.go: map the runes, remove the spaces, then
run the normalization chain that folds accented letters to their base
letters. -/
def toProtobufPkg (path : String) : String :=
  let pkg := path.data.map pkgMapRune
  let pkg := pkg.filter (fun c => c != ' ')
  String.mk (pkg.map removeDiacritics)

/-- transformType of transform.go.  The package is threaded explicitly in
place of the Go pointer mutation, and the report.Warn side channel becomes
the middle component of the result. -/
def Transformer.transformType (t : Transformer) (pkg : Package) :
    SType → Package × List Warning × Option PType
| SType.named _ path name =>
    match t.findMapping (namedString path name) with
    | some protoType => (pkg.importProto protoType, [], some protoType.type)
    | none => (pkg.importFromPath path, [], some (PType.named (toProtobufPkg path) name))
| SType.basic _ name =>
    match t.findMapping name with
    | some protoType => (pkg.importProto protoType, [], some protoType.type)
    | none => (pkg, [Warning.unmappedBasic name], none)
| SType.smap _ key value =>
    let r1 := t.transformType pkg key
    let r2 := t.transformType r1.1 value
    (r2.1, r1.2.1 ++ r2.2.1, some (PType.pmap r1.2.2 r2.2.2))

/-- transformField of transform.go: the byte-slice special case produces a
non-repeated bytes field, every other field resolves its type through
transformType and keeps the declared repeated flag; a nil resolved type
drops the field. -/
def Transformer.transformField (t : Transformer) (pkg : Package) (field : SField)
    (pos : Nat) : Package × List Warning × Option Field :=
  if isByteSlice field.type then
    (pkg, [],
      some { name := toLowerSnakeCase field.name, pos := pos,
             type := PType.basic "bytes", repeated := false })
  else
    let r := t.transformType pkg field.type
    match r.2.2 with
    | none => (r.1, r.2.1, none)
    | some typ =>
        (r.1, r.2.1,
          some { name := toLowerSnakeCase field.name, pos := pos,
                 type := typ, repeated := field.type.isRepeated })

/-- The loop body of transformStruct of transform.go, with the Go loop
index i made explicit: field i is transformed at position i plus one; a
dropped field reserves that position and reports the invalid-field
warning. -/
def Transformer.transformStructFields (t : Transformer) :
    Package → Message → List Warning → Nat → List SField →
      Package × List Warning × Message
| pkg, msg, ws, _, [] => (pkg, ws, msg)
| pkg, msg, ws, i, f :: fs =>
    let r := t.transformField pkg f (i + 1)
    match r.2.2 with
    | none =>
        t.transformStructFields r.1 (msg.reserve (i + 1))
          (ws ++ r.2.1 ++ [Warning.invalidField f.name msg.name]) (i + 1) fs
    | some field =>
        t.transformStructFields r.1 { msg with fields := msg.fields ++ [field] }
          (ws ++ r.2.1) (i + 1) fs

/-- transformStruct of transform.go. -/
def Transformer.transformStruct (t : Transformer) (pkg : Package) (s : SStruct) :
    Package × List Warning × Message :=
  t.transformStructFields pkg { name := s.name } [] 0 s.fields

/-- Modelled from the spec: EnumValues.Add (in the missing protobuf types
file) appends one value with its ordinal in declared order. -/
def PEnum.addValue (e : PEnum) (name : String) (value : Nat) : PEnum :=
  { e with values := e.values ++ [{ name := name, value := value }] }

/-- The loop of transformEnum of transform.go with the index explicit. -/
def addEnumValues : PEnum → Nat → List String → PEnum
| enum, _, [] => enum
| enum, i, v :: vs => addEnumValues (enum.addValue (toUpperSnakeCase v) i) (i + 1) vs

/-- transformEnum of transform.go: every declared value, in declared
order, becomes one enum value named by upper snake case with its zero-based
index as ordinal. -/
def Transformer.transformEnum (t : Transformer) (e : SEnum) : PEnum :=
  addEnumValues { name := e.name } 0 e.values

/-- Whether transformType succeeds on a type; success never depends on the
package state, only on the mapping tables. -/
def Transformer.typeMappable (t : Transformer) : SType → Bool
| SType.basic _ name => (t.findMapping name).isSome
| SType.named _ _ _ => true
| SType.smap _ _ _ => true

/-- Whether transformField produces a field: either the byte-slice special
case or a mappable type. -/
def Transformer.fieldMappable (t : Transformer) (f : SField) : Bool :=
  isByteSlice f.type || t.typeMappable f.type

/-- The 1-based positions of the fields a struct transformation keeps,
with the zero-based declaration index of the first listed field set to i:
the field of index j is kept at position j plus one exactly when it is
mappable. -/
def keptPositions (t : Transformer) : Nat → List SField → List Nat
| _, [] => []
| i, f :: fs =>
    if t.fieldMappable f then (i + 1) :: keptPositions t (i + 1) fs
    else keptPositions t (i + 1) fs

/-- The 1-based positions of the fields a struct transformation drops and
reserves, with the zero-based declaration index of the first listed field
set to i. -/
def droppedPositions (t : Transformer) : Nat → List SField → List Nat
| _, [] => []
| i, f :: fs =>
    if t.fieldMappable f then droppedPositions t (i + 1) fs
    else (i + 1) :: droppedPositions t (i + 1) fs

/-- The enum values an enum transformation produces from the declared
value names, the first one carrying ordinal i. -/
def enumValuesFrom : Nat → List String → List EnumValue
| _, [] => []
| i, v :: vs => { name := toUpperSnakeCase v, value := i } :: enumValuesFrom (i + 1) vs

/-- scanner.Func: name, optional receiver, ordered input and output type
lists. -/
structure Func : Type where
  name : String
  receiver : Option SType := none
  inputs : List SType := []
  outputs : List SType := []
deriving Repr, DecidableEq

/-- Modelled from the spec: the schema-facing name of a function
(transformFunc is absent from the provided sources).  A method takes the
name ReceiverTypeName_FunctionName; a receiver that is not a named type
makes the whole function be skipped. -/
def funcSchemaName (fn : Func) : Option String :=
  match fn.receiver with
  | none => some fn.name
  | some (SType.named _ _ rname) => some (rname ++ "_" ++ fn.name)
  | some _ => none

/-- Modelled from the spec: the sentinel error type, matched by exact name
at the RPC-synthesis boundary; as a trailing output it is never carried
into the response wrapper. -/
def isErrorSentinel : SType → Bool
| SType.named _ _ n => n == "error"
| _ => false

/-- Modelled from the spec: drop a trailing error-sentinel output. -/
def dropErrorOutput (outs : List SType) : List SType :=
  match outs.getLast? with
  | some ty => if isErrorSentinel ty then outs.dropLast else outs
  | none => outs

/-- Modelled from the spec: the single-value optimization detects a lone,
non-repeated named input or output, which is then used directly instead of
a synthesized wrapper. -/
def singleNamed : List SType → Option SType
| [SType.named false p n] => some (SType.named false p n)
| _ => none

/-- Modelled from the spec: the synthesized wrapper fields arg1, arg2, ...
or result1, result2, ... in declaration order. -/
def numberedFields (base : String) (tys : List SType) : List SField :=
  (tys.enum).map (fun p => { name := base ++ toString (p.1 + 1), type := p.2 })

/-- Modelled from the spec: one side (input or output) of an RPC under
synthesis: either the lone named type is used directly, or a wrapper
message is built (through the ordinary struct transformation, which gives
the arguments the reserve-and-warn treatment) and its generated name is
registered in the collision set.  Returns the updated package, the updated
collision set, the wrapper messages to commit and the type
reference. -/
def Transformer.funcSide (t : Transformer) (pkg : Package) (tys : List SType)
    (wrapperName base pkgPath : String) (names : List String) :
    Package × List String × List Message × PType :=
  match singleNamed tys with
  | some ty =>
      let r := t.transformType pkg ty
      (r.1, names, [], (r.2.2).getD (PType.named "" ""))
  | none =>
      let r := t.transformStruct pkg { name := wrapperName, fields := numberedFields base tys }
      (r.1, names ++ [wrapperName], [r.2.2], PType.generated (toProtobufPkg pkgPath) wrapperName)

/-- Modelled from the spec: transformFunc, absent from the provided
sources (only its tests are present).  One function becomes one RPC entry
plus up to two synthesized wrapper messages; if either proposed wrapper
name is already in the cross-run collision set the whole function is
skipped before anything is mutated, so no incomplete RPC is ever emitted.
The report side channel of the wrapper field transformations is not
threaded out of this model. -/
def Transformer.transformFunc (t : Transformer) (pkg : Package) (fn : Func)
    (names : List String) : Package × List String × Option RPC :=
  match funcSchemaName fn with
  | none => (pkg, names, none)
  | some name =>
      if names.contains (name ++ "Request") || names.contains (name ++ "Response") then
        (pkg, names, none)
      else
        let inSide := t.funcSide pkg fn.inputs (name ++ "Request") "arg" pkg.path names
        let outSide := t.funcSide inSide.1 (dropErrorOutput fn.outputs)
          (name ++ "Response") "result" pkg.path inSide.2.1
        let rpc : RPC := { name := name, inputType := inSide.2.2.2, outputType := outSide.2.2.2 }
        ({ outSide.1 with
            messages := outSide.1.messages ++ inSide.2.2.1 ++ outSide.2.2.1,
            rpcs := outSide.1.rpcs ++ [rpc] },
          outSide.2.1, some rpc)

/-- A transformer with no custom mappings: NewTransformer starts from an
empty table and SetMappings with nil keeps it, so only the default table
applies. -/
def t0 : Transformer := { mappings := [] }

/-- An empty output package. -/
def pkg0 : Package := {}

/-- A three-field struct whose field types are mappable, unmappable and
mappable: complex64 has no entry in either table. -/
def structThree : SStruct :=
  { name := "Foo",
    fields := [ { name := "A", type := SType.basic false "int32" },
                { name := "B", type := SType.basic false "complex64" },
                { name := "C", type := SType.basic false "int32" } ] }

/-- The function of the collision-suppression test: DoFoo with two inputs
and three outputs, the last output being the error sentinel. -/
def fn0 : Func :=
  { name := "DoFoo",
    inputs := [SType.named false "foo" "Bar", SType.basic false "int"],
    outputs := [SType.named false "foo" "Foo", SType.basic false "bool",
                SType.named false "" "error"] }

/-! Helper lemmas relating the transformation functions to the
mappability predicates. -/

theorem transformType_isSome (t : Transformer) (pkg : Package) (ty : SType) :
    ((t.transformType pkg ty).2.2).isSome = t.typeMappable ty := by
  cases ty with
  | basic r name =>
      simp only [Transformer.transformType, Transformer.typeMappable]
      cases t.findMapping name <;> simp
  | named r path name =>
      simp only [Transformer.transformType, Transformer.typeMappable]
      cases t.findMapping (namedString path name) <;> simp
  | smap r k v =>
      simp [Transformer.transformType, Transformer.typeMappable]

theorem transformField_isSome (t : Transformer) (pkg : Package) (f : SField) (pos : Nat) :
    ((t.transformField pkg f pos).2.2).isSome = t.fieldMappable f := by
  rw [Transformer.fieldMappable]
  by_cases hb : isByteSlice f.type = true
  · simp [Transformer.transformField, hb]
  · have hb' : isByteSlice f.type = false := Bool.not_eq_true _ ▸ Bool.of_not_eq_true hb
    rw [hb']
    simp only [Bool.false_or]
    rw [← transformType_isSome t pkg f.type]
    simp only [Transformer.transformField, hb', Bool.false_eq_true, if_false]
    cases hres : (t.transformType pkg f.type).2.2 <;> simp [hres]

theorem transformField_pos (t : Transformer) (pkg : Package) (f : SField) (p : Nat)
    (fld : Field) (h : (t.transformField pkg f p).2.2 = some fld) : fld.pos = p := by
  simp only [Transformer.transformField] at h
  split at h
  · simp only [Option.some.injEq] at h
    rw [← h]
  · split at h
    · exact Option.noConfusion h
    · simp only [Option.some.injEq] at h
      rw [← h]

/-- The stateful snake-case recursion computed against a positional
description: the separator appears exactly before an uppercase letter
whose predecessor exists and is not uppercase. -/
theorem lowerSnakeChars_spec :
    ∀ (l : List Char) (prev : Option Char),
      lowerSnakeChars prev.isNone
          (match prev with | some c => c.isUpper | none => false) l
        = ((l.zip (prev :: l.map some)).map (fun p =>
            (if p.1.isUpper && (match p.2 with | some c => !c.isUpper | none => false)
              then ['_'] else []) ++ [p.1.toLower])).flatten := by
  intro l
  induction l with
  | nil => intro prev; cases prev <;> rfl
  | cons r rest ih =>
      intro prev
      have ihr := ih (some r)
      dsimp only [Option.isNone] at ihr
      cases prev with
      | none =>
          dsimp only [Option.isNone]
          simp only [lowerSnakeChars, List.map_cons, List.zip_cons_cons, List.flatten_cons]
          rw [ihr]
          simp
      | some c =>
          dsimp only [Option.isNone]
          simp only [lowerSnakeChars, List.map_cons, List.zip_cons_cons, List.flatten_cons]
          rw [ihr]
          by_cases hc : (r.isUpper && !c.isUpper) = true
          · simp [hc]
          · have hc' : (r.isUpper && !c.isUpper) = false :=
              Bool.not_eq_true _ ▸ Bool.of_not_eq_true hc
            simp [hc']

/-- Claim C2: the lower-snake-case transform inserts an underscore before
exactly those uppercase letters that are not the first character and are
not preceded by another uppercase letter, then lowercases every character;
the five boundary cases of the test suite evaluate as stated. -/
theorem c2_lower_snake_case :
    (∀ s : String,
      (toLowerSnakeCase s).data
        = ((s.data.zip ((none : Option Char) :: s.data.map some)).map (fun p =>
            (if p.1.isUpper && (match p.2 with | some c => !c.isUpper | none => false)
              then ['_'] else []) ++ [p.1.toLower])).flatten)
    ∧ toLowerSnakeCase "fooBarBaz" = "foo_bar_baz"
    ∧ toLowerSnakeCase "FooBarBaz" = "foo_bar_baz"
    ∧ toLowerSnakeCase "foo1barBaz" = "foo1bar_baz"
    ∧ toLowerSnakeCase "fooBAR" = "foo_bar"
    ∧ toLowerSnakeCase "FBar" = "fbar" := by
  refine ⟨?_, by decide, by decide, by decide, by decide, by decide⟩
  intro s
  have h := lowerSnakeChars_spec s.data none
  simpa [toLowerSnakeCase] using h

theorem addEnumValues_values :
    ∀ (vs : List String) (e : PEnum) (i : Nat),
      addEnumValues e i vs = { name := e.name, values := e.values ++ enumValuesFrom i vs } := by
  intro vs
  induction vs with
  | nil => intro e i; simp [addEnumValues, enumValuesFrom]
  | cons v vs ih =>
      intro e i
      simp only [addEnumValues, enumValuesFrom]
      rw [ih]
      simp [PEnum.addValue]

theorem enumValuesFrom_names :
    ∀ (vs : List String) (i : Nat),
      (enumValuesFrom i vs).map EnumValue.name = vs.map toUpperSnakeCase := by
  intro vs
  induction vs with
  | nil => intro i; rfl
  | cons v vs ih => intro i; simp [enumValuesFrom, ih]

theorem enumValuesFrom_ordinals :
    ∀ (vs : List String) (i : Nat),
      (enumValuesFrom i vs).map EnumValue.value = (List.range vs.length).map (fun j => i + j) := by
  intro vs
  induction vs with
  | nil => intro i; rfl
  | cons v vs ih =>
      intro i
      simp only [enumValuesFrom, List.map_cons, List.length_cons,
        List.range_succ_eq_map, List.map_map]
      rw [ih (i + 1)]
      refine List.cons_eq_cons.mpr ⟨by omega, ?_⟩
      apply List.map_congr_left
      intro a _
      simp [Function.comp]
      omega

/-- Claim C3: the transformed enum keeps the declared name, lists one
value per declared value in declared order, names it by upper snake case
and gives it its zero-based declaration index as ordinal; the declared
values Foo, Bar, BarBaz yield exactly FOO at 0, BAR at 1, BAR_BAZ at 2. -/
theorem c3_enum_ordinals :
    (∀ (t : Transformer) (e : SEnum),
      (t.transformEnum e).name = e.name
      ∧ (t.transformEnum e).values.map EnumValue.name = e.values.map toUpperSnakeCase
      ∧ (t.transformEnum e).values.map EnumValue.value = List.range e.values.length)
    ∧ t0.transformEnum { name := "Foo", values := ["Foo", "Bar", "BarBaz"] }
        = { name := "Foo",
            values := [ { name := "FOO", value := 0 },
                        { name := "BAR", value := 1 },
                        { name := "BAR_BAZ", value := 2 } ] } := by
  constructor
  · intro t e
    rw [Transformer.transformEnum, addEnumValues_values]
    refine ⟨rfl, ?_, ?_⟩
    · simp [enumValuesFrom_names]
    · rw [show ({ name := e.name } : PEnum).values = [] from rfl]
      rw [List.nil_append, enumValuesFrom_ordinals]
      simp
  · decide

/-- Claim C4: a field declared as a byte slice becomes a non-repeated
field of the basic type bytes; any other produced field keeps the declared
repeated flag. -/
theorem c4_byte_slice_field :
    ∀ (t : Transformer) (pkg : Package) (f : SField) (pos : Nat),
      (isByteSlice f.type = true →
        (t.transformField pkg f pos).2.2
          = some { name := toLowerSnakeCase f.name, pos := pos,
                   type := PType.basic "bytes", repeated := false })
      ∧ (isByteSlice f.type = false →
          ∀ fld : Field, (t.transformField pkg f pos).2.2 = some fld →
            fld.repeated = f.type.isRepeated) := by
  intro t pkg f pos
  constructor
  · intro hb
    simp [Transformer.transformField, hb]
  · intro hb fld h
    simp only [Transformer.transformField, hb, Bool.false_eq_true, if_false] at h
    split at h
    · exact Option.noConfusion h
    · simp only [Option.some.injEq] at h
      rw [← h]

/-- Witness for claim C4 at a concrete byte-slice field. -/
theorem c4_byte_slice_field_witness :
    (t0.transformField pkg0 { name := "Bar", type := SType.basic true "byte" } 1).2.2
      = some { name := "bar", pos := 1, type := PType.basic "bytes", repeated := false } :=
  (c4_byte_slice_field t0 pkg0 { name := "Bar", type := SType.basic true "byte" } 1).1 rfl

theorem mem_addImport (p : Package) (file : String) : file ∈ (p.addImport file).imports := by
  rw [Package.addImport]
  split
  · assumption
  · simp

/-- Claim C5 counterexample: a field whose declared type is the named type
foo.Bar, absent from both mapping tables, is not dropped: the struct
transformation keeps it at position 1, reserves nothing and emits no
warning. -/
theorem c5_counterexample :
    t0.findMapping "foo.Bar" = none
    ∧ (t0.transformStruct pkg0
        { name := "S", fields := [{ name := "F", type := SType.named false "foo" "Bar" }] }).2.2.fields.map Field.pos
      = [1]
    ∧ (t0.transformStruct pkg0
        { name := "S", fields := [{ name := "F", type := SType.named false "foo" "Bar" }] }).2.2.reserved
      = []
    ∧ (t0.transformStruct pkg0
        { name := "S", fields := [{ name := "F", type := SType.named false "foo" "Bar" }] }).2.1
      = [] := by
  refine ⟨rfl, by decide, by decide, by decide⟩

/-- Claim C5 (amended): a field whose declared type is a basic type whose
name is absent from both mapping tables is dropped with a warning naming
the type, and the containing struct reserves its position; named types
absent from the tables are instead kept (see the claim on named types). -/
theorem c5_unmapped_basic_dropped :
    ∀ (t : Transformer) (pkg : Package) (r : Bool) (nm : String),
      t.findMapping nm = none →
      (t.transformType pkg (SType.basic r nm) = (pkg, [Warning.unmappedBasic nm], none))
      ∧ (∀ (fname : String) (pos : Nat),
          (t.transformField pkg { name := fname, type := SType.basic r nm } pos).2.2 = none)
      ∧ (∀ (sname fname : String),
          (t.transformStruct pkg
              { name := sname, fields := [{ name := fname, type := SType.basic r nm }] }).2.2.reserved
            = [1]
          ∧ (t.transformStruct pkg
              { name := sname, fields := [{ name := fname, type := SType.basic r nm }] }).2.2.fields
            = []
          ∧ Warning.unmappedBasic nm ∈ (t.transformStruct pkg
              { name := sname, fields := [{ name := fname, type := SType.basic r nm }] }).2.1) := by
  intro t pkg r nm h
  have htype : t.transformType pkg (SType.basic r nm) = (pkg, [Warning.unmappedBasic nm], none) := by
    simp [Transformer.transformType, h]
  have hnm : (nm == "byte") = false := by
    by_cases hb : nm = "byte"
    · subst hb
      rw [Transformer.findMapping] at h
      rcases hc : lookupMapping t.mappings "byte" with _ | q
      · rw [hc] at h
        exact absurd h (by decide)
      · rw [hc] at h
        exact Option.noConfusion h
    · exact beq_eq_false_iff_ne.mpr hb
  have hslice : isByteSlice (SType.basic r nm) = false := by
    simp [isByteSlice, hnm]
  have hfield : ∀ (fname : String) (pos : Nat),
      t.transformField pkg { name := fname, type := SType.basic r nm } pos
        = (pkg, [Warning.unmappedBasic nm], none) := by
    intro fname pos
    simp [Transformer.transformField, hslice, htype]
  refine ⟨htype, fun fname pos => by rw [hfield fname pos], ?_⟩
  intro sname fname
  have hstruct : t.transformStruct pkg
      { name := sname, fields := [{ name := fname, type := SType.basic r nm }] }
      = (pkg, [Warning.unmappedBasic nm, Warning.invalidField fname sname],
          { name := sname, fields := [], reserved := [1] }) := by
    simp [Transformer.transformStruct, Transformer.transformStructFields,
      hfield fname 1, Message.reserve]
  rw [hstruct]
  refine ⟨rfl, rfl, by simp⟩

/-- Witness for the amended claim C5 at the unmapped basic type
complex64. -/
theorem c5_unmapped_basic_dropped_witness :
    t0.transformType pkg0 (SType.basic false "complex64")
      = (pkg0, [Warning.unmappedBasic "complex64"], none) :=
  (c5_unmapped_basic_dropped t0 pkg0 false "complex64" rfl).1

/-- Claim C6 counterexample: a map field whose key type complex64 resolves
to nothing is not dropped; the transformation produces a field whose map
type carries a missing key component. -/
theorem c6_counterexample :
    t0.findMapping "complex64" = none
    ∧ (t0.transformField pkg0
        { name := "M",
          type := SType.smap false (SType.basic false "complex64") (SType.basic false "string") } 1).2.2
      = some { name := "m", pos := 1,
               type := PType.pmap none (some (PType.basic "string")), repeated := false } := by
  exact ⟨rfl, rfl⟩

/-- Claim C6 (amended): a map field resolves its key and value types
independently, but failure of either does not make the field unmappable:
an output field is always produced, its map type carrying the possibly
missing resolution result of each component. -/
theorem c6_map_components_independent :
    ∀ (t : Transformer) (pkg : Package) (r : Bool) (k v : SType) (fname : String) (pos : Nat),
      (t.transformField pkg { name := fname, type := SType.smap r k v } pos).2.2
        = some { name := toLowerSnakeCase fname, pos := pos,
                 type := PType.pmap (t.transformType pkg k).2.2
                          ((t.transformType (t.transformType pkg k).1 v).2.2),
                 repeated := r } := by
  intro t pkg r k v fname pos
  rfl

/-- Claim C7 (code bug): the default table widens int8, int16 to int32
and uint8, uint16, byte to uint32, each entry storing a non-empty upgrade
warning string as documented in mapping.go, but transform.go never passes
the stored warning to the report sink: transforming a field of such a type
emits no warning at all. -/
theorem c7_upgrade_warning_never_surfaced :
    ((lookupMapping DefaultMappings "int8").map ProtoType.name = some "int32"
      ∧ (lookupMapping DefaultMappings "int8").map ProtoType.warn
          = some "type %s was upgraded to int32")
    ∧ ((lookupMapping DefaultMappings "int16").map ProtoType.name = some "int32"
      ∧ (lookupMapping DefaultMappings "int16").map ProtoType.warn
          = some "type %s was upgraded to int32")
    ∧ ((lookupMapping DefaultMappings "uint8").map ProtoType.name = some "uint32"
      ∧ (lookupMapping DefaultMappings "uint8").map ProtoType.warn
          = some "type %s was upgraded to uint32")
    ∧ ((lookupMapping DefaultMappings "uint16").map ProtoType.name = some "uint32"
      ∧ (lookupMapping DefaultMappings "uint16").map ProtoType.warn
          = some "type %s was upgraded to uint32")
    ∧ ((lookupMapping DefaultMappings "byte").map ProtoType.name = some "uint32"
      ∧ (lookupMapping DefaultMappings "byte").map ProtoType.warn
          = some "type %s was upgraded to uint32")
    ∧ (t0.transformType pkg0 (SType.basic false "int8")).2.1 = []
    ∧ (t0.transformType pkg0 (SType.basic false "uint16")).2.1 = []
    ∧ (t0.transformField pkg0 { name := "A", type := SType.basic false "int8" } 1).2.1 = [] := by
  decide

/-- Claim C10: a field whose declared type is a named type absent from
both mapping tables is kept: its output type is a named type whose package
is the schema namespace of the source package path and whose name is the
unchanged source type name, and the generated proto file of the source
package path is registered among the output package imports. -/
theorem c10_unmapped_named_kept :
    ∀ (t : Transformer) (pkg : Package) (r : Bool) (path name : String),
      t.findMapping (namedString path name) = none →
      (t.transformType pkg (SType.named r path name)
          = (pkg.importFromPath path, [], some (PType.named (toProtobufPkg path) name)))
      ∧ (path ++ "/generated.proto") ∈ (t.transformType pkg (SType.named r path name)).1.imports := by
  intro t pkg r path name h
  have h1 : t.transformType pkg (SType.named r path name)
      = (pkg.importFromPath path, [], some (PType.named (toProtobufPkg path) name)) := by
    simp [Transformer.transformType, h]
  refine ⟨h1, ?_⟩
  rw [h1]
  exact mem_addImport pkg (path ++ "/generated.proto")

/-- Witness for claim C10 at the unmapped named type foo.Bar. -/
theorem c10_unmapped_named_kept_witness :
    "foo/generated.proto" ∈ (t0.transformType pkg0 (SType.named false "foo" "Bar")).1.imports :=
  (c10_unmapped_named_kept t0 pkg0 false "foo" "Bar" rfl).2

theorem accentFold_snd_ok :
    ∀ p ∈ accentFold, pkgMapRune p.2 = p.2 ∧ removeDiacritics p.2 = p.2 ∧ p.2 ≠ ' ' := by
  decide

theorem pkgMapRune_second_pass (c : Char) (h : pkgMapRune c ≠ ' ') :
    pkgMapRune (removeDiacritics (pkgMapRune c)) = removeDiacritics (pkgMapRune c)
    ∧ removeDiacritics (removeDiacritics (pkgMapRune c)) = removeDiacritics (pkgMapRune c)
    ∧ removeDiacritics (pkgMapRune c) ≠ ' ' := by
  by_cases h1 : (c == '/' || c == '.') = true
  · have hc : pkgMapRune c = '.' := by simp [pkgMapRune, h1]
    rw [hc]
    exact ⟨rfl, rfl, by decide⟩
  · by_cases h2 : (goIsLetter c || goIsNumber c) = true
    · have hc : pkgMapRune c = c := by simp [pkgMapRune, h1, h2]
      rw [hc]
      rcases hf : List.find? (fun p => p.1 == c) accentFold with _ | q
      · have hd : removeDiacritics c = c := by simp [removeDiacritics, hf]
        rw [hd]
        refine ⟨hc, hd, ?_⟩
        intro hsp
        subst hsp
        have : (goIsLetter ' ' || goIsNumber ' ') = false := by decide
        rw [this] at h2
        exact Bool.noConfusion h2
      · have hq := List.mem_of_find?_eq_some hf
        have hd : removeDiacritics c = q.2 := by simp [removeDiacritics, hf]
        rw [hd]
        have hok := accentFold_snd_ok q hq
        exact ⟨hok.1, hok.2.1, hok.2.2⟩
    · exfalso
      apply h
      simp [pkgMapRune, h1, h2]

theorem map_fixpoints {α : Type} (f : α → α) :
    ∀ l : List α, (∀ a ∈ l, f a = a) → l.map f = l := by
  intro l
  induction l with
  | nil => intro _; rfl
  | cons a l ih =>
      intro h
      simp only [List.map_cons]
      rw [h a (List.mem_cons_self a l), ih (fun b hb => h b (List.mem_cons_of_mem a hb))]

theorem filter_of_all {α : Type} (p : α → Bool) :
    ∀ l : List α, (∀ a ∈ l, p a = true) → l.filter p = l := by
  intro l
  induction l with
  | nil => intro _; rfl
  | cons a l ih =>
      intro h
      rw [List.filter_cons_of_pos (h a (List.mem_cons_self a l)),
        ih (fun b hb => h b (List.mem_cons_of_mem a hb))]

theorem toProtobufPkg_data (s : String) :
    (toProtobufPkg s).data
      = ((s.data.map pkgMapRune).filter (fun c => c != ' ')).map removeDiacritics := rfl

theorem toProtobufPkg_chars (s : String) :
    ∀ d ∈ (toProtobufPkg s).data,
      pkgMapRune d = d ∧ removeDiacritics d = d ∧ (d != ' ') = true := by
  intro d hd
  rw [toProtobufPkg_data] at hd
  rcases List.mem_map.mp hd with ⟨c', hc', rfl⟩
  rcases List.mem_filter.mp hc' with ⟨hcmem, hcne⟩
  rcases List.mem_map.mp hcmem with ⟨c, hc, rfl⟩
  have hne : pkgMapRune c ≠ ' ' := by
    intro hsp
    rw [hsp] at hcne
    simp at hcne
  have h := pkgMapRune_second_pass c hne
  exact ⟨h.1, h.2.1, bne_iff_ne.mpr h.2.2⟩

theorem toProtobufPkg_idem (s : String) :
    toProtobufPkg (toProtobufPkg s) = toProtobufPkg s := by
  show String.mk ((((toProtobufPkg s).data.map pkgMapRune).filter
      (fun c => c != ' ')).map removeDiacritics) = toProtobufPkg s
  rw [map_fixpoints pkgMapRune _ (fun a ha => (toProtobufPkg_chars s a ha).1),
    filter_of_all _ _ (fun a ha => (toProtobufPkg_chars s a ha).2.2),
    map_fixpoints removeDiacritics _ (fun a ha => (toProtobufPkg_chars s a ha).2.1)]

/-- Claim C8: the package-path-to-namespace transform is idempotent, maps
net/url to net.url and github.com/foo/bar to github.com.foo.bar, and folds
accented letters to their base letters before namespace derivation. -/
theorem c8_protobuf_pkg :
    (∀ s : String, toProtobufPkg (toProtobufPkg s) = toProtobufPkg s)
    ∧ toProtobufPkg "net/url" = "net.url"
    ∧ toProtobufPkg "github.com/foo/bar" = "github.com.foo.bar"
    ∧ toProtobufPkg "github.cóm/fòo/bar" = "github.com.foo.bar" :=
  ⟨toProtobufPkg_idem, by decide, by decide, by decide⟩

theorem keptPositions_lt (t : Transformer) :
    ∀ (fs : List SField) (i p : Nat), p ∈ keptPositions t i fs → i < p := by
  intro fs
  induction fs with
  | nil => intro i p hp; simp [keptPositions] at hp
  | cons f fs ih =>
      intro i p hp
      rw [keptPositions] at hp
      by_cases hm : t.fieldMappable f = true
      · rw [if_pos hm] at hp
        rcases List.mem_cons.mp hp with h | h
        · omega
        · have := ih (i + 1) p h
          omega
      · rw [if_neg hm] at hp
        have := ih (i + 1) p hp
        omega

theorem droppedPositions_lt (t : Transformer) :
    ∀ (fs : List SField) (i p : Nat), p ∈ droppedPositions t i fs → i < p := by
  intro fs
  induction fs with
  | nil => intro i p hp; simp [droppedPositions] at hp
  | cons f fs ih =>
      intro i p hp
      rw [droppedPositions] at hp
      by_cases hm : t.fieldMappable f = true
      · rw [if_pos hm] at hp
        have := ih (i + 1) p hp
        omega
      · rw [if_neg hm] at hp
        rcases List.mem_cons.mp hp with h | h
        · omega
        · have := ih (i + 1) p h
          omega

theorem kept_dropped_disjoint (t : Transformer) :
    ∀ (fs : List SField) (i p : Nat),
      p ∈ keptPositions t i fs → p ∉ droppedPositions t i fs := by
  intro fs
  induction fs with
  | nil => intro i p hp; simp [keptPositions] at hp
  | cons f fs ih =>
      intro i p hp hq
      rw [keptPositions] at hp
      rw [droppedPositions] at hq
      by_cases hm : t.fieldMappable f = true
      · rw [if_pos hm] at hp hq
        rcases List.mem_cons.mp hp with h | h
        · subst h
          have := droppedPositions_lt t fs (i + 1) (i + 1) hq
          omega
        · exact ih (i + 1) p h hq
      · rw [if_neg hm] at hp hq
        rcases List.mem_cons.mp hq with h | h
        · have := keptPositions_lt t fs (i + 1) p hp
          omega
        · exact ih (i + 1) p hp h

theorem keptPositions_chain (t : Transformer) :
    ∀ (fs : List SField) (i : Nat), List.Chain' (· < ·) (keptPositions t i fs) := by
  intro fs
  induction fs with
  | nil => intro i; simp [keptPositions]
  | cons f fs ih =>
      intro i
      rw [keptPositions]
      by_cases hm : t.fieldMappable f = true
      · rw [if_pos hm]
        refine List.chain'_cons'.mpr ⟨?_, ih (i + 1)⟩
        intro y hy
        have hmem := List.mem_of_mem_head? hy
        have := keptPositions_lt t fs (i + 1) y hmem
        omega
      · rw [if_neg hm]
        exact ih (i + 1)

theorem transformStructFields_spec (t : Transformer) :
    ∀ (fs : List SField) (pkg : Package) (msg : Message) (ws : List Warning) (i : Nat),
      (∀ p ∈ msg.reserved, p ≤ i) →
      ((t.transformStructFields pkg msg ws i fs).2.2.fields.map Field.pos
          = msg.fields.map Field.pos ++ keptPositions t i fs)
      ∧ ((t.transformStructFields pkg msg ws i fs).2.2.reserved
          = msg.reserved ++ droppedPositions t i fs) := by
  intro fs
  induction fs with
  | nil =>
      intro pkg msg ws i hres
      simp [Transformer.transformStructFields, keptPositions, droppedPositions]
  | cons f fs ih =>
      intro pkg msg ws i hres
      rcases hfld : (t.transformField pkg f (i + 1)).2.2 with _ | fld
      · have hmap : t.fieldMappable f = false := by
          rw [← transformField_isSome t pkg f (i + 1), hfld]
          rfl
        have hstep : t.transformStructFields pkg msg ws i (f :: fs)
            = t.transformStructFields (t.transformField pkg f (i + 1)).1
                (msg.reserve (i + 1))
                (ws ++ (t.transformField pkg f (i + 1)).2.1
                  ++ [Warning.invalidField f.name msg.name]) (i + 1) fs := by
          simp only [Transformer.transformStructFields, hfld]
        have hnotmem : (i + 1) ∉ msg.reserved := by
          intro hmem
          have := hres _ hmem
          omega
        have hreserve : msg.reserve (i + 1) = { msg with reserved := msg.reserved ++ [i + 1] } := by
          rw [Message.reserve, if_neg hnotmem]
        have hres' : ∀ p ∈ (msg.reserve (i + 1)).reserved, p ≤ i + 1 := by
          rw [hreserve]
          intro p hp
          rcases List.mem_append.mp hp with hl | hl
          · exact Nat.le_succ_of_le (hres p hl)
          · simp at hl
            omega
        have ihres := ih (t.transformField pkg f (i + 1)).1 (msg.reserve (i + 1))
          (ws ++ (t.transformField pkg f (i + 1)).2.1
            ++ [Warning.invalidField f.name msg.name]) (i + 1) hres'
        constructor
        · rw [hstep, ihres.1, hreserve]
          simp [keptPositions, hmap]
        · rw [hstep, ihres.2, hreserve]
          simp [droppedPositions, hmap]
      · have hmap : t.fieldMappable f = true := by
          rw [← transformField_isSome t pkg f (i + 1), hfld]
          rfl
        have hpos : fld.pos = i + 1 := transformField_pos t pkg f (i + 1) fld hfld
        have hstep : t.transformStructFields pkg msg ws i (f :: fs)
            = t.transformStructFields (t.transformField pkg f (i + 1)).1
                { msg with fields := msg.fields ++ [fld] }
                (ws ++ (t.transformField pkg f (i + 1)).2.1) (i + 1) fs := by
          simp only [Transformer.transformStructFields, hfld]
        have hres' : ∀ p ∈ ({ msg with fields := msg.fields ++ [fld] } : Message).reserved,
            p ≤ i + 1 := by
          intro p hp
          exact Nat.le_succ_of_le (hres p hp)
        have ihres := ih (t.transformField pkg f (i + 1)).1
          { msg with fields := msg.fields ++ [fld] }
          (ws ++ (t.transformField pkg f (i + 1)).2.1) (i + 1) hres'
        constructor
        · rw [hstep, ihres.1]
          simp [keptPositions, hmap, hpos]
        · rw [hstep, ihres.2]
          simp [droppedPositions, hmap]

/-- Claim C1: struct transformation gives every kept field the position
declaration index plus one, reserves exactly the positions of the dropped
fields, never places a position both in the field list and the reserved
set, and keeps field positions strictly increasing; on a struct with
mappable, unmappable, mappable field types the fields sit at positions 1
and 3 and the reserved set is exactly 2. -/
theorem c1_struct_positions :
    (∀ (t : Transformer) (pkg : Package) (s : SStruct),
      ((t.transformStruct pkg s).2.2.fields.map Field.pos = keptPositions t 0 s.fields)
      ∧ ((t.transformStruct pkg s).2.2.reserved = droppedPositions t 0 s.fields)
      ∧ (∀ p, p ∈ (t.transformStruct pkg s).2.2.fields.map Field.pos →
            p ∉ (t.transformStruct pkg s).2.2.reserved)
      ∧ List.Chain' (· < ·) ((t.transformStruct pkg s).2.2.fields.map Field.pos))
    ∧ (t0.transformStruct pkg0 structThree).2.2.fields.map Field.pos = [1, 3]
    ∧ (t0.transformStruct pkg0 structThree).2.2.reserved = [2] := by
  refine ⟨?_, by decide, by decide⟩
  intro t pkg s
  have h := transformStructFields_spec t s.fields pkg { name := s.name } [] 0
    (by intro p hp; simp at hp)
  have hfields : (t.transformStruct pkg s).2.2.fields.map Field.pos = keptPositions t 0 s.fields := by
    rw [Transformer.transformStruct, h.1]
    simp
  have hreserved : (t.transformStruct pkg s).2.2.reserved = droppedPositions t 0 s.fields := by
    rw [Transformer.transformStruct, h.2]
    simp
  refine ⟨hfields, hreserved, ?_, ?_⟩
  · intro p hp
    rw [hfields] at hp
    rw [hreserved]
    exact kept_dropped_disjoint t s.fields 0 p hp
  · rw [hfields]
    exact keptPositions_chain t s.fields 0

/-- Witness for claim C1: at the concrete three-field struct, position 1
is a field position and therefore not reserved. -/
theorem c1_struct_positions_witness :
    (1 : Nat) ∉ (t0.transformStruct pkg0 structThree).2.2.reserved :=
  (c1_struct_positions.1 t0 pkg0 structThree).2.2.1 1 (by decide)

/-- Claim C9: when the proposed request or response wrapper name of a
function is already present in the cross-run collision set, RPC synthesis
is skipped transactionally: the package is returned unchanged (no RPC
entry, no wrapper message) and no RPC is produced. -/
theorem c9_collision_skips_rpc :
    ∀ (t : Transformer) (pkg : Package) (fn : Func) (names : List String) (nm : String),
      funcSchemaName fn = some nm →
      (names.contains (nm ++ "Request") || names.contains (nm ++ "Response")) = true →
      t.transformFunc pkg fn names = (pkg, names, none) := by
  intro t pkg fn names nm h1 h2
  simp only [Transformer.transformFunc, h1, h2, if_true]

/-- Witness for claim C9: the two-argument DoFoo function against a
collision set already containing DoFooRequest. -/
theorem c9_collision_skips_rpc_witness :
    t0.transformFunc pkg0 fn0 ["DoFooRequest"] = (pkg0, ["DoFooRequest"], none) :=
  c9_collision_skips_rpc t0 pkg0 fn0 ["DoFooRequest"] "DoFoo" rfl (by decide)

end Proteus
